import Mathlib

/-!
Verification of the `sunxdcc` client library (a paginated search-result
decoder and iterator) against its natural-language specification.

The development shallowly embeds `src/lib.rs`:

* `RawResult` embeds the deserialized wire page (eight parallel `Vec<String>`
  fields).
* `RawResult.is_consistent` and `RawResult.consume` embed the decoder.
  Rust's `Vec<SearchResult>` buffer is modelled as a `List SearchResult`
  whose last element is the top of the stack: `Vec::push` appends at the
  end (`acc ++ [x]`) and `Vec::pop` removes `getLast?`.  `izip!` over the
  eight reversed iterators is the nested `List.zip` of the reversed lists
  (an 8-tuple in Lean is exactly the right-nested pair the nested zip
  produces), stopping at the shortest list just as `izip!` does.
* The HTTP transport is modelled as an oracle `fetch : String → Nat →
  FetchOutcome`: `sendErr` is a failure of `send()` (a `reqwest::Error`,
  hence `Error.Request`), `jsonErr` is a failure of `.json::<RawResult>()`
  (also a `reqwest::Error` by reqwest's signature, hence also
  `Error.Request` through the `#[from]` conversion), and `page raw` is a
  successfully deserialized body.
* `SearchResults.refresh` and `SearchResults.next` embed the iterator;
  since Rust mutates `&mut self`, both return the updated state alongside
  the result, and `refresh` returns the mutated state on the error path
  too (the buffer has already been cleared when `?` returns early).
* `SearchResults.pulls` iterates `next` a given number of times, recording
  the outcome of every pull, to state the pagination/ordering claims.
-/

/-- Embeds `enum Error`: `Request` wraps a `reqwest::Error` (transport or
body-deserialization failure), `Malformed` carries the descriptive message. -/
inductive Error where
  | Request : Error
  | Malformed : String → Error
  deriving DecidableEq, Repr

/-- Embeds `struct RawResult`: the raw results from a single search request's
response, eight parallel lists of strings. -/
structure RawResult where
  network : List String
  channel : List String
  bot : List String
  fsize : List String
  fname : List String
  packnum : List String
  gets : List String
  botrec : List String
  deriving DecidableEq, Repr

/-- Embeds `struct SearchResult`: a single decoded result. -/
structure SearchResult where
  network : String
  channel : String
  bot : String
  filesize : String
  filename : String
  packet_number : String
  download_count : String
  upload_speed : Option String
  deriving DecidableEq, Repr, Inhabited

/-- Embeds the loop body of `RawResult::consume`: build one `SearchResult`
from one position of each of the eight sequences, mapping the `botrec`
sentinel `"Na"` to `None` (the Rust `match botrec.as_str()`). -/
def mkSearchResult (network channel bot fsize fname packnum gets botrec : String) :
    SearchResult :=
  { network := network, channel := channel, bot := bot, filesize := fsize,
    filename := fname, packet_number := packnum, download_count := gets,
    upload_speed := match botrec with
      | "Na" => none
      | _ => some botrec }

/-- Uncurried form of `mkSearchResult`, taking the 8-tuple produced by the
`izip!` of the eight sequences (the tuple destructuring in the `for` loop). -/
def mkFromTuple :
    String × String × String × String × String × String × String × String →
      SearchResult
  | (network, channel, bot, fsize, fname, packnum, gets, botrec) =>
    mkSearchResult network channel bot fsize fname packnum gets botrec

/-- Embeds `RawResult::is_consistent`: the pivot-based pairwise length check. -/
def RawResult.is_consistent (r : RawResult) : Bool :=
  r.network.length == r.channel.length
    && r.channel.length == r.bot.length
    && r.channel.length == r.fsize.length
    && r.channel.length == r.fname.length
    && r.channel.length == r.packnum.length
    && r.channel.length == r.gets.length
    && r.channel.length == r.botrec.length

/-- Embeds `RawResult::consume`: check consistency, then push one record per
`izip!`-tuple of the eight reversed sequences onto `results`.  On the error
path the buffer is returned unchanged (the Rust early-returns before pushing
anything). -/
def RawResult.consume (r : RawResult) (results : List SearchResult) :
    Except Error Unit × List SearchResult :=
  if !r.is_consistent then
    (Except.error (Error.Malformed "mismatch in adjacent list sizes"), results)
  else
    (Except.ok (),
      (r.network.reverse.zip (r.channel.reverse.zip (r.bot.reverse.zip
          (r.fsize.reverse.zip (r.fname.reverse.zip (r.packnum.reverse.zip
            (r.gets.reverse.zip r.botrec.reverse))))))).foldl
        (fun acc t => acc ++ [mkFromTuple t]) results)

/-- The page's records in the service's original left-to-right order: record
`i` is assembled from position `i` of each of the eight sequences.  `consume`
fills the buffer with exactly `(records r).reverse` (proved below), so that
popping from the end yields this order. -/
def RawResult.records (r : RawResult) : List SearchResult :=
  (r.network.zip (r.channel.zip (r.bot.zip (r.fsize.zip (r.fname.zip
      (r.packnum.zip (r.gets.zip r.botrec))))))).map mkFromTuple

/-- Spec-side formulation of consistency (for the refinement claim): all eight
sequence lengths are equal. -/
def allLengthsEqual (r : RawResult) : Prop :=
  r.network.length = r.channel.length ∧ r.network.length = r.bot.length ∧
    r.network.length = r.fsize.length ∧ r.network.length = r.fname.length ∧
    r.network.length = r.packnum.length ∧ r.network.length = r.gets.length ∧
    r.network.length = r.botrec.length

instance (r : RawResult) : Decidable (allLengthsEqual r) := by
  unfold allLengthsEqual
  exact inferInstance

/-- One observable outcome of the HTTP round-trip
`self.client.get(url).send()?.json::<RawResult>()?`.  Both failure variants
surface as `reqwest::Error`, hence as `Error.Request`. -/
inductive FetchOutcome where
  | sendErr : FetchOutcome
  | jsonErr : FetchOutcome
  | page : RawResult → FetchOutcome

/-- Embeds `struct SearchResults`: the stateful iteration container (the
`reqwest` client is part of the modelled transport oracle, not of the state). -/
structure SearchResults where
  query : String
  current_page : Nat
  current_results : List SearchResult
  deriving DecidableEq, Repr

/-- Embeds `SearchResults::new`. -/
def SearchResults.new (query : String) : SearchResults :=
  { query := query, current_page := 0, current_results := [] }

/-- Embeds `SearchResults::refresh`: clear the buffer, fetch
`query`/`current_page`, decode into the buffer, and increment the page index
only on success.  The `fetch` oracle stands for the HTTP transport. -/
def SearchResults.refresh (s : SearchResults) (fetch : String → Nat → FetchOutcome) :
    Except Error Unit × SearchResults :=
  let cleared : SearchResults := { s with current_results := [] }
  match fetch cleared.query cleared.current_page with
  | FetchOutcome.sendErr => (Except.error Error.Request, cleared)
  | FetchOutcome.jsonErr => (Except.error Error.Request, cleared)
  | FetchOutcome.page raw =>
    match raw.consume cleared.current_results with
    | (Except.error e, rs) => (Except.error e, { cleared with current_results := rs })
    | (Except.ok _, rs) =>
      (Except.ok (),
        { cleared with current_results := rs, current_page := cleared.current_page + 1 })

/-- Embeds `Ok(self.current_results.pop()).transpose()`: pop from the end of
the buffer, yielding `some (Except.ok x)` or `none`. -/
def SearchResults.popNext (s : SearchResults) :
    Option (Except Error SearchResult) × SearchResults :=
  match s.current_results.getLast? with
  | none => (none, s)
  | some x => (some (Except.ok x), { s with current_results := s.current_results.dropLast })

/-- Embeds `<SearchResults as Iterator>::next`: refresh when just starting or
when the buffer is exhausted, surfacing a refresh error as this pull's item;
otherwise pop one buffered record. -/
def SearchResults.next (s : SearchResults) (fetch : String → Nat → FetchOutcome) :
    Option (Except Error SearchResult) × SearchResults :=
  if s.current_page == 0 || s.current_results.isEmpty then
    match s.refresh fetch with
    | (Except.error e, s') => (some (Except.error e), s')
    | (Except.ok _, s') => s'.popNext
  else
    s.popNext

/-- Run `next` a given number of times, recording every pull's outcome in
order, together with the final state. -/
def SearchResults.pulls (s : SearchResults) (fetch : String → Nat → FetchOutcome) :
    Nat → List (Option (Except Error SearchResult)) × SearchResults
  | 0 => ([], s)
  | n + 1 =>
    let step := s.next fetch
    let rest := step.2.pulls fetch n
    (step.1 :: rest.1, rest.2)

lemma foldl_push {α β : Type} (f : α → β) (l : List α) :
    ∀ init : List β, l.foldl (fun acc x => acc ++ [f x]) init = init ++ l.map f := by
  induction l with
  | nil => intro init; simp
  | cons x xs ih => intro init; simp [ih]

lemma consistent_iff (r : RawResult) : r.is_consistent = true ↔ allLengthsEqual r := by
  simp only [RawResult.is_consistent, allLengthsEqual, Bool.and_eq_true, beq_iff_eq]
  omega

lemma mk_upload_speed (network channel bot fsize fname packnum gets botrec : String) :
    (mkSearchResult network channel bot fsize fname packnum gets botrec).upload_speed
      = if botrec = "Na" then none else some botrec := by
  simp only [mkSearchResult]
  split
  · simp
  · rename_i hne
    rw [if_neg]
    intro hcontra
    exact hne hcontra

lemma consume_of_consistent (r : RawResult) (h : r.is_consistent = true)
    (results : List SearchResult) :
    r.consume results =
      (Except.ok (),
        results ++
          (r.network.reverse.zip (r.channel.reverse.zip (r.bot.reverse.zip
              (r.fsize.reverse.zip (r.fname.reverse.zip (r.packnum.reverse.zip
                (r.gets.reverse.zip r.botrec.reverse))))))).map mkFromTuple) := by
  simp [RawResult.consume, h, foldl_push]

lemma records_length (r : RawResult) (h : r.is_consistent = true) :
    r.records.length = r.network.length := by
  obtain ⟨h1, h2, h3, h4, h5, h6, h7⟩ := (consistent_iff r).1 h
  simp [RawResult.records, List.length_zip, ← h1, ← h2, ← h3, ← h4, ← h5, ← h6, ← h7]

lemma consume_buffer (r : RawResult) (h : r.is_consistent = true) :
    (r.network.reverse.zip (r.channel.reverse.zip (r.bot.reverse.zip
        (r.fsize.reverse.zip (r.fname.reverse.zip (r.packnum.reverse.zip
          (r.gets.reverse.zip r.botrec.reverse))))))).map mkFromTuple
      = r.records.reverse := by
  obtain ⟨h1, h2, h3, h4, h5, h6, h7⟩ := (consistent_iff r).1 h
  apply List.ext_getElem
  · simp [RawResult.records, List.length_zip, ← h1, ← h2, ← h3, ← h4, ← h5, ← h6, ← h7]
  · intro i hi1 hi2
    simp only [List.length_map, List.length_zip, List.length_reverse,
      ← h1, ← h2, ← h3, ← h4, ← h5, ← h6, ← h7, Nat.min_self] at hi1
    simp [RawResult.records, List.getElem_map, List.getElem_zip, List.getElem_reverse,
      List.length_map, List.length_zip, ← h1, ← h2, ← h3, ← h4, ← h5, ← h6, ← h7]

lemma consume_spec (r : RawResult) (h : r.is_consistent = true)
    (results : List SearchResult) :
    r.consume results = (Except.ok (), results ++ r.records.reverse) := by
  rw [consume_of_consistent r h, consume_buffer r h]

lemma consume_of_inconsistent (r : RawResult) (h : ¬ allLengthsEqual r)
    (results : List SearchResult) :
    r.consume results =
      (Except.error (Error.Malformed "mismatch in adjacent list sizes"), results) := by
  have hb : r.is_consistent = false := by
    cases hc : r.is_consistent
    · rfl
    · exact absurd ((consistent_iff r).1 hc) h
  simp [RawResult.consume, hb]

set_option maxHeartbeats 1000000 in
lemma records_getElem (r : RawResult) (L : Nat)
    (h1 : r.network.length = L) (h2 : r.channel.length = L) (h3 : r.bot.length = L)
    (h4 : r.fsize.length = L) (h5 : r.fname.length = L) (h6 : r.packnum.length = L)
    (h7 : r.gets.length = L) (h8 : r.botrec.length = L)
    (i : Nat) (hi : i < L) :
    r.records[i]! = mkSearchResult r.network[i]! r.channel[i]! r.bot[i]! r.fsize[i]!
      r.fname[i]! r.packnum[i]! r.gets[i]! r.botrec[i]! := by
  have hrl : r.records.length = L := by
    simp [RawResult.records, List.length_zip, h1, h2, h3, h4, h5, h6, h7, h8]
  rw [getElem!_pos r.records i (by omega), getElem!_pos r.network i (by omega),
    getElem!_pos r.channel i (by omega), getElem!_pos r.bot i (by omega),
    getElem!_pos r.fsize i (by omega), getElem!_pos r.fname i (by omega),
    getElem!_pos r.packnum i (by omega), getElem!_pos r.gets i (by omega),
    getElem!_pos r.botrec i (by omega)]
  simp [RawResult.records, List.getElem_map, List.getElem_zip, mkFromTuple]

example :
    (RawResult.mk ["a"] ["b"] ["c"] ["d"] ["e"] ["f"] ["g"] ["Na"]).consume []
      = (Except.ok (), [mkSearchResult "a" "b" "c" "d" "e" "f" "g" "Na"]) := by
  rfl

lemma refresh_of_error (s : SearchResults) (fetch : String → Nat → FetchOutcome)
    (e : Error) (h : (s.refresh fetch).1 = Except.error e) :
    s.refresh fetch = (Except.error e, ⟨s.query, s.current_page, []⟩) := by
  cases hf : fetch s.query s.current_page with
  | sendErr =>
    simp only [SearchResults.refresh, hf] at h ⊢
    simp_all
  | jsonErr =>
    simp only [SearchResults.refresh, hf] at h ⊢
    simp_all
  | page raw =>
    cases hc : raw.is_consistent with
    | false =>
      have hne : ¬ allLengthsEqual raw := fun ha => by
        rw [(consistent_iff raw).2 ha] at hc; exact Bool.noConfusion hc
      simp only [SearchResults.refresh, hf, consume_of_inconsistent raw hne] at h ⊢
      simp_all
    | true =>
      simp only [SearchResults.refresh, hf, consume_spec raw hc] at h
      exact Except.noConfusion h

lemma refresh_of_page (s : SearchResults) (fetch : String → Nat → FetchOutcome)
    (raw : RawResult) (hf : fetch s.query s.current_page = FetchOutcome.page raw)
    (hc : raw.is_consistent = true) :
    s.refresh fetch =
      (Except.ok (), ⟨s.query, s.current_page + 1, raw.records.reverse⟩) := by
  simp [SearchResults.refresh, hf, consume_spec raw hc]

lemma popNext_concat (q : String) (p : Nat) (b : List SearchResult) (x : SearchResult) :
    SearchResults.popNext ⟨q, p, b ++ [x]⟩ = (some (Except.ok x), ⟨q, p, b⟩) := by
  simp [SearchResults.popNext, List.getLast?_concat, List.dropLast_concat]

lemma next_of_buffered (s : SearchResults) (fetch : String → Nat → FetchOutcome)
    (hp : s.current_page ≠ 0) (hb : s.current_results ≠ []) :
    s.next fetch = s.popNext := by
  simp [SearchResults.next, hp, hb]

lemma next_of_empty (s : SearchResults) (fetch : String → Nat → FetchOutcome)
    (h : s.current_page = 0 ∨ s.current_results = []) :
    s.next fetch =
      match s.refresh fetch with
      | (Except.error e, s') => (some (Except.error e), s')
      | (Except.ok _, s') => s'.popNext := by
  rcases h with h | h <;> simp [SearchResults.next, h]

lemma pulls_buffer (fetch : String → Nat → FetchOutcome) (q : String) (p : Nat)
    (hp : p ≠ 0) (b : List SearchResult) :
    SearchResults.pulls ⟨q, p, b⟩ fetch b.length
      = (b.reverse.map (fun x => some (Except.ok x)), ⟨q, p, []⟩) := by
  induction b using List.reverseRecOn with
  | nil => simp [SearchResults.pulls]
  | append_singleton bs x ih =>
    rw [show (bs ++ [x]).length = bs.length + 1 by simp]
    simp only [SearchResults.pulls]
    rw [next_of_buffered _ fetch hp (by simp), popNext_concat]
    simp [ih, List.reverse_append]

lemma pulls_page (fetch : String → Nat → FetchOutcome) (q : String) (p : Nat)
    (P : RawResult) (hf : fetch q p = FetchOutcome.page P)
    (hc : P.is_consistent = true) (hne : P.records ≠ []) :
    SearchResults.pulls ⟨q, p, []⟩ fetch P.records.length
      = (P.records.map (fun x => some (Except.ok x)), ⟨q, p + 1, []⟩) := by
  cases hrec : P.records with
  | nil => exact absurd hrec hne
  | cons r0 rest =>
    rw [show (r0 :: rest).length = rest.length + 1 by simp]
    simp only [SearchResults.pulls]
    rw [next_of_empty _ fetch (Or.inr rfl), refresh_of_page ⟨q, p, []⟩ fetch P hf hc]
    simp only [hrec, List.reverse_cons]
    rw [popNext_concat]
    have hres := pulls_buffer fetch q (p + 1) (by omega) rest.reverse
    rw [List.length_reverse] at hres
    simp [hres]

lemma pulls_add (fetch : String → Nat → FetchOutcome) (m n : Nat) :
    ∀ s : SearchResults,
      s.pulls fetch (m + n)
        = ((s.pulls fetch m).1 ++ ((s.pulls fetch m).2.pulls fetch n).1,
           ((s.pulls fetch m).2.pulls fetch n).2) := by
  induction m with
  | zero => intro s; simp [SearchResults.pulls]
  | succ k ih =>
    intro s
    rw [show k + 1 + n = (k + n) + 1 by omega]
    simp only [SearchResults.pulls]
    rw [ih]
    simp

/-- Scenario A of the spec: two records, first `botrec` is the sentinel. -/
def pageA : RawResult :=
  { network := ["irc.a.net", "irc.b.net"], channel := ["#x", "#y"], bot := ["B1", "B2"],
    fsize := ["[1M]", "[2M]"], fname := ["f1", "f2"], packnum := ["#1", "#2"],
    gets := ["1x", "2x"], botrec := ["Na", "100.0kB/s"] }

/-- A consistent one-record page, used as a later page in iterator witnesses. -/
def pageD : RawResult :=
  { network := ["irc.c.net"], channel := ["#z"], bot := ["B3"], fsize := ["[3M]"],
    fname := ["f3"], packnum := ["#3"], gets := ["3x"], botrec := ["500.0kB/s"] }

/-- Scenario B of the spec: `network` has length 2 but `channel` has length 3. -/
def pageB : RawResult :=
  { network := ["irc.a.net", "irc.b.net"], channel := ["#x", "#y", "#z"],
    bot := ["B1", "B2"], fsize := ["[1M]", "[2M]"], fname := ["f1", "f2"],
    packnum := ["#1", "#2"], gets := ["1x", "2x"], botrec := ["Na", "Na"] }

/-- A page whose eight sequences are all empty: consistent, zero records. -/
def emptyPage : RawResult :=
  { network := [], channel := [], bot := [], fsize := [], fname := [],
    packnum := [], gets := [], botrec := [] }

/-- C1: for every RawPage whose eight sequences all have the same length `L`
(`L = 0` included), decoding succeeds — the buffer receives exactly the
records in reverse order, so the consumption (pop) order is `r.records` —
and there are exactly `L` records, record `i` being assembled from position
`i` of each of the eight sequences. -/
theorem consume_decodes_in_order (r : RawResult) (L : Nat)
    (h1 : r.network.length = L) (h2 : r.channel.length = L) (h3 : r.bot.length = L)
    (h4 : r.fsize.length = L) (h5 : r.fname.length = L) (h6 : r.packnum.length = L)
    (h7 : r.gets.length = L) (h8 : r.botrec.length = L) :
    r.consume [] = (Except.ok (), r.records.reverse) ∧
    r.records.length = L ∧
    ∀ i, i < L →
      r.records[i]! = mkSearchResult r.network[i]! r.channel[i]! r.bot[i]! r.fsize[i]!
        r.fname[i]! r.packnum[i]! r.gets[i]! r.botrec[i]! := by
  have hc : r.is_consistent = true := (consistent_iff r).2
    ⟨by omega, by omega, by omega, by omega, by omega, by omega, by omega⟩
  exact ⟨by simpa using consume_spec r hc [], by rw [records_length r hc, h1],
    fun i hi => records_getElem r L h1 h2 h3 h4 h5 h6 h7 h8 i hi⟩

theorem consume_decodes_in_order_witness :
    pageA.network.length = 2 ∧
    (pageA.consume [] = (Except.ok (), pageA.records.reverse) ∧
      pageA.records.length = 2 ∧
      ∀ i, i < 2 →
        pageA.records[i]! = mkSearchResult pageA.network[i]! pageA.channel[i]!
          pageA.bot[i]! pageA.fsize[i]! pageA.fname[i]! pageA.packnum[i]!
          pageA.gets[i]! pageA.botrec[i]!) :=
  ⟨rfl, consume_decodes_in_order pageA 2 rfl rfl rfl rfl rfl rfl rfl rfl⟩

/-- C2: for every RawPage with equal-length sequences, the decoded record at
index `i` has `upload_speed` equal to `none` exactly when the raw `botrec`
value at index `i` is the sentinel `"Na"` (any other string passes through
verbatim as `some`), and all other fields are copied verbatim from position
`i` of the corresponding sequence, with no parsing or conversion. -/
theorem consume_maps_botrec_sentinel (r : RawResult) (L : Nat)
    (h1 : r.network.length = L) (h2 : r.channel.length = L) (h3 : r.bot.length = L)
    (h4 : r.fsize.length = L) (h5 : r.fname.length = L) (h6 : r.packnum.length = L)
    (h7 : r.gets.length = L) (h8 : r.botrec.length = L) :
    r.consume [] = (Except.ok (), r.records.reverse) ∧
    ∀ i, i < L →
      (r.records[i]!).upload_speed
          = (if r.botrec[i]! = "Na" then none else some r.botrec[i]!) ∧
      (r.records[i]!).network = r.network[i]! ∧
      (r.records[i]!).channel = r.channel[i]! ∧
      (r.records[i]!).bot = r.bot[i]! ∧
      (r.records[i]!).filesize = r.fsize[i]! ∧
      (r.records[i]!).filename = r.fname[i]! ∧
      (r.records[i]!).packet_number = r.packnum[i]! ∧
      (r.records[i]!).download_count = r.gets[i]! := by
  have hc : r.is_consistent = true := (consistent_iff r).2
    ⟨by omega, by omega, by omega, by omega, by omega, by omega, by omega⟩
  refine ⟨by simpa using consume_spec r hc [], fun i hi => ?_⟩
  rw [records_getElem r L h1 h2 h3 h4 h5 h6 h7 h8 i hi]
  exact ⟨mk_upload_speed _ _ _ _ _ _ _ _, rfl, rfl, rfl, rfl, rfl, rfl, rfl⟩

theorem consume_maps_botrec_sentinel_witness :
    pageA.botrec.length = 2 ∧
    (pageA.records[0]!).upload_speed = none ∧
    (pageA.records[1]!).upload_speed = some "100.0kB/s" ∧
    (pageA.consume [] = (Except.ok (), pageA.records.reverse) ∧
      ∀ i, i < 2 →
        (pageA.records[i]!).upload_speed
            = (if pageA.botrec[i]! = "Na" then none else some pageA.botrec[i]!) ∧
        (pageA.records[i]!).network = pageA.network[i]! ∧
        (pageA.records[i]!).channel = pageA.channel[i]! ∧
        (pageA.records[i]!).bot = pageA.bot[i]! ∧
        (pageA.records[i]!).filesize = pageA.fsize[i]! ∧
        (pageA.records[i]!).filename = pageA.fname[i]! ∧
        (pageA.records[i]!).packet_number = pageA.packnum[i]! ∧
        (pageA.records[i]!).download_count = pageA.gets[i]!) :=
  ⟨rfl, by decide, by decide,
    consume_maps_botrec_sentinel pageA 2 rfl rfl rfl rfl rfl rfl rfl rfl⟩

/-- C3: for every RawPage in which at least one sequence length differs from
the others (not all eight lengths equal), decoding fails with
`Error.Malformed "mismatch in adjacent list sizes"` — the message that
identifies the sequence length mismatch — and the output buffer is returned
unchanged: zero records are emitted. -/
theorem consume_inconsistent_page_fails (r : RawResult)
    (h : ¬ allLengthsEqual r) (results : List SearchResult) :
    r.consume results
      = (Except.error (Error.Malformed "mismatch in adjacent list sizes"), results) :=
  consume_of_inconsistent r h results

theorem consume_inconsistent_page_fails_witness :
    ¬ allLengthsEqual pageB ∧
    pageB.consume []
      = (Except.error (Error.Malformed "mismatch in adjacent list sizes"), []) :=
  ⟨by decide, consume_inconsistent_page_fails pageB (by decide) []⟩

/-- C4: for pages `P0`, `P1`, `P2` (fetched at indexes 0, 1, 2) that each
decode to a nonzero number of records, running the iterator for exactly as
many pulls as there are records yields `P0`'s records, in the service's
original order, then `P1`'s, then `P2`'s — the in-page order is preserved
even though the buffer is filled in reverse and consumed by popping from
the end. -/
theorem pulls_yield_pages_in_order (q : String) (fetch : String → Nat → FetchOutcome)
    (P0 P1 P2 : RawResult)
    (hf0 : fetch q 0 = FetchOutcome.page P0) (hf1 : fetch q 1 = FetchOutcome.page P1)
    (hf2 : fetch q 2 = FetchOutcome.page P2)
    (hc0 : P0.is_consistent = true) (hc1 : P1.is_consistent = true)
    (hc2 : P2.is_consistent = true)
    (hn0 : P0.records ≠ []) (hn1 : P1.records ≠ []) (hn2 : P2.records ≠ []) :
    (SearchResults.new q).pulls fetch
        (P0.records.length + P1.records.length + P2.records.length)
      = ((P0.records ++ P1.records ++ P2.records).map (fun x => some (Except.ok x)),
         ⟨q, 3, []⟩) := by
  have e0 := pulls_page fetch q 0 P0 hf0 hc0 hn0
  have e1 := pulls_page fetch q 1 P1 hf1 hc1 hn1
  have e2 := pulls_page fetch q 2 P2 hf2 hc2 hn2
  show SearchResults.pulls ⟨q, 0, []⟩ fetch _ = _
  rw [Nat.add_assoc,
    pulls_add fetch P0.records.length (P1.records.length + P2.records.length), e0,
    pulls_add fetch P1.records.length P2.records.length, e1, e2]
  simp [List.map_append]

/-- Transport oracle for the C4 witness: page 0 is `pageA` (two records),
every later page is `pageD` (one record). -/
def fetchABC : String → Nat → FetchOutcome := fun _ p =>
  if p = 0 then FetchOutcome.page pageA else FetchOutcome.page pageD

theorem pulls_yield_pages_in_order_witness :
    fetchABC "q" 0 = FetchOutcome.page pageA ∧
    pageA.records ≠ [] ∧ pageD.records ≠ [] ∧
    (SearchResults.new "q").pulls fetchABC
        (pageA.records.length + pageD.records.length + pageD.records.length)
      = ((pageA.records ++ pageD.records ++ pageD.records).map
           (fun x => some (Except.ok x)),
         ⟨"q", 3, []⟩) :=
  ⟨rfl, by decide, by decide,
    pulls_yield_pages_in_order "q" fetchABC pageA pageD pageD rfl rfl rfl rfl rfl rfl
      (by decide) (by decide) (by decide)⟩

/-- C5: for every pull that triggers a refresh (fresh iterator or exhausted
buffer) whose fetch or decode fails, the error is surfaced as exactly that
pull's item, the page index is not advanced, and the resulting state is the
clean state at the same page index — so the next pull, with any transport
oracle, behaves exactly like a pull from a clean state at the same page
index: the failure is retried there and does not poison future calls. -/
theorem next_error_not_poisoning (s : SearchResults) (fetch : String → Nat → FetchOutcome)
    (e : Error) (htrig : s.current_page = 0 ∨ s.current_results = [])
    (herr : (s.refresh fetch).1 = Except.error e) :
    s.next fetch = (some (Except.error e), ⟨s.query, s.current_page, []⟩) ∧
    ∀ fetch2 : String → Nat → FetchOutcome,
      (s.next fetch).2.next fetch2
        = SearchResults.next ⟨s.query, s.current_page, []⟩ fetch2 := by
  have h1 : s.next fetch = (some (Except.error e), ⟨s.query, s.current_page, []⟩) := by
    rw [next_of_empty s fetch htrig, refresh_of_error s fetch e herr]
  exact ⟨h1, fun fetch2 => by rw [h1]⟩

/-- Transport oracle that always fails at the send step. -/
def fetchFail : String → Nat → FetchOutcome := fun _ _ => FetchOutcome.sendErr

theorem next_error_not_poisoning_witness :
    ((SearchResults.new "q").refresh fetchFail).1 = Except.error Error.Request ∧
    ((SearchResults.new "q").next fetchFail
        = (some (Except.error Error.Request), ⟨"q", 0, []⟩) ∧
      ∀ fetch2 : String → Nat → FetchOutcome,
        ((SearchResults.new "q").next fetchFail).2.next fetch2
          = SearchResults.next ⟨"q", 0, []⟩ fetch2) :=
  ⟨rfl, next_error_not_poisoning (SearchResults.new "q") fetchFail Error.Request
    (Or.inl rfl) rfl⟩

/-- C6: whenever a pull triggers a fetch that succeeds and the decoded page
yields zero records, that pull yields no record (`none`), the page index is
still advanced (no definitive end-of-results is declared), and the next
pull, with any transport oracle, behaves exactly like a pull from a clean
state at the next page index — i.e. it performs a fetch with the next page
index. -/
theorem next_empty_page_advances (s : SearchResults) (fetch : String → Nat → FetchOutcome)
    (P : RawResult) (htrig : s.current_page = 0 ∨ s.current_results = [])
    (hf : fetch s.query s.current_page = FetchOutcome.page P)
    (hc : P.is_consistent = true) (hempty : P.records = []) :
    s.next fetch = (none, ⟨s.query, s.current_page + 1, []⟩) ∧
    ∀ fetch2 : String → Nat → FetchOutcome,
      (s.next fetch).2.next fetch2
        = SearchResults.next ⟨s.query, s.current_page + 1, []⟩ fetch2 := by
  have h1 : s.next fetch = (none, ⟨s.query, s.current_page + 1, []⟩) := by
    rw [next_of_empty s fetch htrig, refresh_of_page s fetch P hf hc]
    simp [hempty, SearchResults.popNext]
  exact ⟨h1, fun fetch2 => by rw [h1]⟩

/-- Transport oracle for Scenario C: page 0 is `pageA` (two records), every
later page is empty. -/
def fetchC : String → Nat → FetchOutcome := fun _ p =>
  if p = 0 then FetchOutcome.page pageA else FetchOutcome.page emptyPage

theorem next_empty_page_advances_witness :
    fetchC "test" 1 = FetchOutcome.page emptyPage ∧
    emptyPage.records = [] ∧
    (SearchResults.next ⟨"test", 1, []⟩ fetchC = (none, ⟨"test", 2, []⟩) ∧
      ∀ fetch2 : String → Nat → FetchOutcome,
        (SearchResults.next ⟨"test", 1, []⟩ fetchC).2.next fetch2
          = SearchResults.next ⟨"test", 2, []⟩ fetch2) :=
  ⟨rfl, rfl,
    next_empty_page_advances ⟨"test", 1, []⟩ fetchC emptyPage (Or.inr rfl) rfl rfl rfl⟩

lemma next_depends_only_on_current (q : String) (p : Nat)
    (f1 f2 : String → Nat → FetchOutcome) (h : f1 q p = f2 q p) :
    SearchResults.next ⟨q, p, []⟩ f1 = SearchResults.next ⟨q, p, []⟩ f2 := by
  rw [next_of_empty _ f1 (Or.inr rfl), next_of_empty _ f2 (Or.inr rfl)]
  have hr : SearchResults.refresh ⟨q, p, []⟩ f1 = SearchResults.refresh ⟨q, p, []⟩ f2 := by
    unfold SearchResults.refresh
    dsimp only
    rw [h]
  rw [hr]

/-- Transport oracle for the C7 counterexample: every page is empty. -/
def fetch7a : String → Nat → FetchOutcome := fun _ _ => FetchOutcome.page emptyPage

/-- Transport oracle for the C7 counterexample: page 0 is empty, every later
page fails at the send step.  Agrees with `fetch7a` at page index 0. -/
def fetch7b : String → Nat → FetchOutcome := fun _ p =>
  if p = 0 then FetchOutcome.page emptyPage else FetchOutcome.sendErr

/-- C7 counterexample: the claim says the pull after an empty page attempts a
fetch with the page index that returned empty.  Page 0 returns empty under
both oracles, and the two oracles agree at page index 0; if the next pull
fetched page index 0 again, its outcome would be the same under both.  It is
not: the second pull consults page index 1 (where the oracles differ), so the
iterator fetches the successor index, not the index that returned empty. -/
theorem next_after_empty_not_same_page_cex :
    fetch7a "q" 0 = fetch7b "q" 0 ∧
    (SearchResults.new "q").next fetch7a = (SearchResults.new "q").next fetch7b ∧
    (((SearchResults.new "q").next fetch7a).2.next fetch7a).1 = none ∧
    (((SearchResults.new "q").next fetch7b).2.next fetch7b).1
        = some (Except.error Error.Request) ∧
    (none : Option (Except Error SearchResult)) ≠ some (Except.error Error.Request) :=
  ⟨rfl, rfl, rfl, rfl, by simp⟩

/-- C7 amended: given a page whose decode yields zero records at index `p`,
the pull advances to the clean state at index `p + 1`, and the next pull
consults the transport oracle exactly at page index `p + 1` (the successor of
the page that returned empty): two oracles agreeing there produce identical
pulls, so no prior page is re-decoded and no page index is skipped. -/
theorem next_after_empty_fetches_successor (s : SearchResults)
    (fetch : String → Nat → FetchOutcome) (P : RawResult)
    (htrig : s.current_page = 0 ∨ s.current_results = [])
    (hf : fetch s.query s.current_page = FetchOutcome.page P)
    (hc : P.is_consistent = true) (hempty : P.records = []) :
    (s.next fetch).2 = ⟨s.query, s.current_page + 1, []⟩ ∧
    ∀ f1 f2 : String → Nat → FetchOutcome,
      f1 s.query (s.current_page + 1) = f2 s.query (s.current_page + 1) →
      (s.next fetch).2.next f1 = (s.next fetch).2.next f2 := by
  have h1 : s.next fetch = (none, ⟨s.query, s.current_page + 1, []⟩) := by
    rw [next_of_empty s fetch htrig, refresh_of_page s fetch P hf hc]
    simp [hempty, SearchResults.popNext]
  refine ⟨by rw [h1], fun f1 f2 hagree => ?_⟩
  rw [h1]
  exact next_depends_only_on_current s.query (s.current_page + 1) f1 f2 hagree

theorem next_after_empty_fetches_successor_witness :
    fetch7a "q" 0 = FetchOutcome.page emptyPage ∧ emptyPage.records = [] ∧
    (((SearchResults.new "q").next fetch7a).2 = ⟨"q", 1, []⟩ ∧
      ∀ f1 f2 : String → Nat → FetchOutcome,
        f1 "q" 1 = f2 "q" 1 →
        ((SearchResults.new "q").next fetch7a).2.next f1
          = ((SearchResults.new "q").next fetch7a).2.next f2) :=
  ⟨rfl, rfl,
    next_after_empty_fetches_successor (SearchResults.new "q") fetch7a emptyPage
      (Or.inl rfl) rfl rfl rfl⟩

/-- Discriminator for the `Malformed` error kind, used to state the C8
counterexample without quantifiers. -/
def Error.isMalformed : Error → Bool
  | Error.Malformed _ => true
  | Error.Request => false

/-- Transport oracle whose body never deserializes into the expected
eight-sequence shape: `.json::<RawResult>()` fails. -/
def fetchJson : String → Nat → FetchOutcome := fun _ _ => FetchOutcome.jsonErr

/-- C8 counterexample: when the response body's JSON does not match the
expected eight-sequence shape, the pull yields `Error.Request` — the
transport error kind (reqwest wraps the deserialization failure, and the
`#[from]` conversion maps it to `Error::Request`) — which is not a
`Malformed` error, contradicting the claim that a `MalformedResponse` error
is yielded. -/
theorem json_shape_error_not_malformed_cex :
    ((SearchResults.new "q").next fetchJson).1 = some (Except.error Error.Request) ∧
    Error.isMalformed Error.Request = false :=
  ⟨rfl, rfl⟩

/-- C8 amended: whenever the response body's JSON structure does not match
the expected shape of the eight named sequences, the pull that triggered the
fetch yields the transport error kind `Error.Request` (the deserialization
failure is wrapped by the transport layer); the `Malformed` kind is produced
only for the sequence length mismatch. -/
theorem json_shape_error_surfaces_request (s : SearchResults)
    (fetch : String → Nat → FetchOutcome)
    (htrig : s.current_page = 0 ∨ s.current_results = [])
    (hf : fetch s.query s.current_page = FetchOutcome.jsonErr) :
    s.next fetch = (some (Except.error Error.Request), ⟨s.query, s.current_page, []⟩) := by
  rw [next_of_empty s fetch htrig]
  have hr : s.refresh fetch = (Except.error Error.Request, ⟨s.query, s.current_page, []⟩) := by
    simp [SearchResults.refresh, hf]
  rw [hr]

theorem json_shape_error_surfaces_request_witness :
    fetchJson "q" 0 = FetchOutcome.jsonErr ∧
    (SearchResults.new "q").next fetchJson
      = (some (Except.error Error.Request), ⟨"q", 0, []⟩) :=
  ⟨rfl, json_shape_error_surfaces_request (SearchResults.new "q") fetchJson
    (Or.inl rfl) rfl⟩

/-- C9: the pivot-based pairwise length check of `is_consistent` (network
against channel, then channel against each of the six remaining sequences)
holds exactly when all eight sequence lengths are equal. -/
theorem is_consistent_iff_all_lengths_equal (r : RawResult) :
    r.is_consistent = true ↔ allLengthsEqual r :=
  consistent_iff r

/-- Iterator state for the C10 witness: mid-iteration, page index 1, two
buffered records. -/
def bufState : SearchResults := ⟨"q", 1, pageA.records⟩

/-- C10: from any state with a nonzero page index and a nonempty buffer, a
pull yields exactly the next pending record (the buffer's last element, i.e.
the next one in service order), removes exactly that record from the buffer,
and leaves the query and the page index unchanged; the outcome is identical
under every transport oracle, so no fetch and no decode is performed. -/
theorem next_buffered_pops_one (s : SearchResults) (fetch : String → Nat → FetchOutcome)
    (hp : s.current_page ≠ 0) (hb : s.current_results ≠ []) :
    s.next fetch
      = (some (Except.ok (s.current_results.getLast hb)),
         ⟨s.query, s.current_page, s.current_results.dropLast⟩) ∧
    ∀ fetch2 : String → Nat → FetchOutcome, s.next fetch2 = s.next fetch := by
  have hpop : s.popNext
      = (some (Except.ok (s.current_results.getLast hb)),
         ⟨s.query, s.current_page, s.current_results.dropLast⟩) := by
    simp [SearchResults.popNext, List.getLast?_eq_getLast _ hb]
  exact ⟨by rw [next_of_buffered s fetch hp hb, hpop],
    fun fetch2 => by rw [next_of_buffered s fetch2 hp hb, next_of_buffered s fetch hp hb]⟩

theorem next_buffered_pops_one_witness :
    bufState.current_page ≠ 0 ∧ bufState.current_results ≠ [] ∧
    (bufState.next fetchFail
        = (some (Except.ok (bufState.current_results.getLast (by decide))),
           ⟨bufState.query, bufState.current_page, bufState.current_results.dropLast⟩) ∧
      ∀ fetch2 : String → Nat → FetchOutcome,
        bufState.next fetch2 = bufState.next fetchFail) :=
  ⟨by decide, by decide, next_buffered_pops_one bufState fetchFail (by decide) (by decide)⟩
